import Mathlib

/-!
# Verification of the language-pack binary decoder

Shallow embedding of the decoder (`src/blob.rs`, `src/products.rs`,
`src/modes.rs`, `src/menus.rs`, `src/parameters.rs`, `src/mnemonics.rs`,
`src/units.rs`, `src/keypadstrs.rs`, `src/enumerations.rs`,
`src/language.rs`) together with theorems settling the specification
claims about it.

Modelling conventions:
* bytes are `Nat` (hypotheses `< 256` are added where a fixed width matters);
* Rust `panic!` / failed `assert_eq!` / out-of-bounds indexing are modelled
  as the `Except.error` branch of the outer `Except String _` monad;
* a Rust `Result<String, String>` return value (a recoverable per-string
  decode error) is modelled as the separate type `RustResult`, so a
  recoverable `Err` is distinguishable from an aborting error;
* `HashMap` is modelled as an association list together with the
  `hmInsert` / `hmLookup` / `hmRemove` operations below; `insert` replaces
  the previous value of an existing key and returns it, matching
  `std::collections::HashMap`.  Iteration order of the raw map never
  matters: every iterator of the source sorts the keys first;
* the shared `RawBlob` handle stored inside index entries is a
  reference-counted pointer to the file bytes with no observable content of
  its own, and the string-duplication statistics (`_Blob::add_string`) are
  observed by no claim; both are omitted from the entry structures.
-/

/-- Rust's `Result` type, used for the *recoverable* string-decode errors of
`RawBlob::get_string` / `RawBlob::bytes_to_string` (as opposed to the fatal
`panic!` aborts, which are modelled by `Except.error`). -/
inductive RustResult (α β : Type) where
  | Ok : α → RustResult α β
  | Err : β → RustResult α β
deriving DecidableEq, Repr

/-- The region tags of `blob.rs` (`enum BlobRegions`). -/
inductive BlobRegions where
  | Empty
  | Header
  | Units
  | Products
  | Parameters
  | Menus
  | Modes
  | Enumerations
  | Mnemonics
  | KeypadStrs
  | Text
  | Invalid
deriving DecidableEq, Repr

/-- Association-list model of `HashMap::get` (keys are unique in every map
the source builds, so "first match" is a faithful reading). -/
def hmLookup {K V : Type} [DecidableEq K] : List (K × V) → K → Option V
  | [], _ => none
  | (k', v) :: rest, k => if k' = k then some v else hmLookup rest k

/-- Association-list model of `HashMap::insert`: replaces the binding of an
existing key in place and returns the previous value (`Option`), exactly the
contract of `std::collections::HashMap::insert`. -/
def hmInsert {K V : Type} [DecidableEq K] : List (K × V) → K → V → Option V × List (K × V)
  | [], k, v => (none, [(k, v)])
  | (k', v') :: rest, k, v =>
    if k' = k then (some v', (k, v) :: rest)
    else
      let r := hmInsert rest k v
      (r.1, (k', v') :: r.2)

/-- Association-list model of `HashMap::remove`: returns the removed value
(if any) and the map without that key. -/
def hmRemove {K V : Type} [DecidableEq K] : List (K × V) → K → Option V × List (K × V)
  | [], _ => (none, [])
  | (k', v') :: rest, k =>
    if k' = k then (some v', rest)
    else
      let r := hmRemove rest k
      (r.1, (k', v') :: r.2)

/-- `Vec::pop`: removes and returns the *last* element.  Every
`Iterator::next` of the source is `self.items.pop()`. -/
def vecPop {α : Type} : List α → Option (α × List α)
  | [] => none
  | x :: xs =>
    match vecPop xs with
    | none => some (x, [])
    | some (a, rest) => some (a, x :: rest)

/-- Repeatedly calling `next` (that is, `vecPop`) until exhaustion, with the
list length as fuel. -/
def drainAux {α : Type} : Nat → List α → List α
  | 0, _ => []
  | n + 1, l =>
    match vecPop l with
    | none => []
    | some (a, rest) => a :: drainAux n rest

/-- The full sequence of items an iterator over `items` yields: `next` is
`items.pop()`, so the items come out back to front. -/
def drain {α : Type} (l : List α) : List α :=
  drainAux l.length l

/-- The `into_iter` body shared verbatim by all eight index types
(`products.rs` lines 186-204 and its clones in `modes.rs`, `menus.rs`,
`parameters.rs`, `mnemonics.rs`, `units.rs`, `keypadstrs.rs`,
`enumerations.rs`): collect the keys, `sort()` them ascending, `reverse()`,
then build the `items` vector in that (descending) order. -/
def intoIterItems {K V : Type} [LinearOrder K] (m : List (K × V)) : List (K × V) :=
  ((List.insertionSort (· ≤ ·) (m.map Prod.fst)).reverse).filterMap
    (fun k => (hmLookup m k).map (fun v => (k, v)))

/-- The loop body of `_Blob::add_region` (`blob.rs` lines 244-258), one
iteration per remaining byte of the range: an `Empty` byte is set to the
tag, a byte already carrying the tag is left alone, and a byte carrying a
*different* tag aborts (`panic!("Region type mismatch")`).  Indexing past
the end of the region vector aborts as well (Rust index panic). -/
def addRegionGo (t : BlobRegions) : Nat → List BlobRegions → Nat →
    Except String (List BlobRegions)
  | 0, regions, _ => .ok regions
  | count + 1, regions, start =>
    match regions[start]? with
    | none => .error "index out of bounds"
    | some r =>
      if r = BlobRegions.Empty then addRegionGo t count (regions.set start t) (start + 1)
      else if r = t then addRegionGo t count regions (start + 1)
      else .error "Region type mismatch"

/-- `_Blob::add_region` proper: the loop above runs once per byte of
`[start, fin)`. -/
def addRegion (regions : List BlobRegions) (start fin : Nat) (t : BlobRegions) :
    Except String (List BlobRegions) :=
  addRegionGo t (fin - start) regions start

/-- `FileBlob` (`blob.rs`): the file bytes, the mutable per-byte region
statistics, and the forward-moving read position. -/
structure FileBlob where
  data : List Nat
  regions : List BlobRegions
  pos : Nat
deriving DecidableEq, Repr

/-- `FileBlob::set_pos`. -/
def FileBlob.set_pos (fb : FileBlob) (p : Nat) : FileBlob :=
  { fb with pos := p }

/-- `FileBlob::read_exact` (`blob.rs` lines 60-70): copy `n` bytes from the
current position (indexing past the end panics), advance the position, and
tag the consumed range. -/
def FileBlob.read_exact (fb : FileBlob) (n : Nat) (t : BlobRegions) :
    Except String (List Nat × FileBlob) :=
  if fb.pos + n ≤ fb.data.length then do
    let buf := (fb.data.drop fb.pos).take n
    let regs ← addRegion fb.regions fb.pos (fb.pos + n) t
    pure (buf, ⟨fb.data, regs, fb.pos + n⟩)
  else .error "index out of bounds"

/-- Little-endian recombination used by `read_le_4bytes`. -/
def le4 (b : List Nat) : Nat :=
  b.getD 0 0 ||| (b.getD 1 0 <<< 8) ||| (b.getD 2 0 <<< 16) ||| (b.getD 3 0 <<< 24)

/-- Little-endian recombination used by `read_le_3bytes` (and by
`conversion.rs::little_endian_3_bytes`, which reads only the first three
bytes of the slice it is handed). -/
def le3 (b : List Nat) : Nat :=
  b.getD 0 0 ||| (b.getD 1 0 <<< 8) ||| (b.getD 2 0 <<< 16)

/-- Little-endian recombination used by `read_le_2bytes`. -/
def le2 (b : List Nat) : Nat :=
  b.getD 0 0 ||| (b.getD 1 0 <<< 8)

/-- `FileBlob::read_le_4bytes`. -/
def FileBlob.read_le_4bytes (fb : FileBlob) (t : BlobRegions) :
    Except String (Nat × FileBlob) := do
  let (buf, fb') ← fb.read_exact 4 t
  pure (le4 buf, fb')

/-- `FileBlob::read_le_3bytes`. -/
def FileBlob.read_le_3bytes (fb : FileBlob) (t : BlobRegions) :
    Except String (Nat × FileBlob) := do
  let (buf, fb') ← fb.read_exact 3 t
  pure (le3 buf, fb')

/-- `FileBlob::read_le_2bytes`. -/
def FileBlob.read_le_2bytes (fb : FileBlob) (t : BlobRegions) :
    Except String (Nat × FileBlob) := do
  let (buf, fb') ← fb.read_exact 2 t
  pure (le2 buf, fb')

/-- `FileBlob::read_byte`. -/
def FileBlob.read_byte (fb : FileBlob) (t : BlobRegions) :
    Except String (Nat × FileBlob) := do
  let (buf, fb') ← fb.read_exact 1 t
  pure (buf.getD 0 0, fb')

/-- The character-map interface (`characters.rs`).  The XML character-map
loader is an external collaborator; the decoder consumes it only through
`is_utf8`, `decode_byte` and `decode_2bytes`.  Both lookups return
`Option String` ("no glyph" entries are skipped by the caller) and abort
fatally (`Except.error`) when the code is missing from the map, exactly the
`panic!` of `CharacterMap::get_unicode`. -/
structure CharacterMaps where
  is_utf8 : Bool
  decode_byte : Nat → Except String (Option String)
  decode_2bytes : Nat → Except String (Option String)

/-- `result + &ch` step of `bytes_to_string`: a `Some` fragment is appended,
a `None` ("no glyph") is silently skipped. -/
def appendFragment (acc : String) (u : Option String) : String :=
  match u with
  | some s => acc ++ s
  | none => acc

/-- Upper-case hex digit. -/
def hexDigitChar (d : Nat) : Char :=
  Char.ofNat (if d < 10 then 48 + d else 55 + d)

/-- Two-digit upper-case hex rendering of one byte (the `{:02X?}` element
format). -/
def hexByte (n : Nat) : String :=
  String.mk [hexDigitChar (n / 16 % 16), hexDigitChar (n % 16)]

/-- The `{:02X?}` debug rendering of a byte vector, `[AA, BB]` style. -/
def hexBytes (bytes : List Nat) : String :=
  "[" ++ String.intercalate ", " (bytes.map hexByte) ++ "]"

/-- The exact recoverable error `bytes_to_string` produces for a dangling
2-byte escape lead: it reports the string decoded so far and the raw bytes. -/
def danglingMsg (acc : String) (bytes : List Nat) : String :=
  "Dangling half word character, string so far is " ++ acc ++ " from " ++ hexBytes bytes

/-- One step of a hand-rolled UTF-8 decoder standing in for
`String::from_utf8` (std library, not repository code): returns the
codepoint and the number of bytes consumed, or `none` for an invalid
sequence.  No claim depends on its details; it exists so that the UTF-8
branch of `bytes_to_string` is executable. -/
def utf8Step (bytes : List Nat) (i : Nat) : Option (Nat × Nat) :=
  match bytes[i]? with
  | none => none
  | some b0 =>
    if b0 < 0x80 then some (b0, 1)
    else if 0xC2 ≤ b0 ∧ b0 ≤ 0xDF then
      match bytes[i + 1]? with
      | some b1 =>
        if 0x80 ≤ b1 ∧ b1 ≤ 0xBF then some (((b0 - 0xC0) <<< 6) ||| (b1 - 0x80), 2) else none
      | none => none
    else if 0xE0 ≤ b0 ∧ b0 ≤ 0xEF then
      match bytes[i + 1]?, bytes[i + 2]? with
      | some b1, some b2 =>
        if (0x80 ≤ b1 ∧ b1 ≤ 0xBF) ∧ (0x80 ≤ b2 ∧ b2 ≤ 0xBF) then
          let c := ((b0 - 0xE0) <<< 12) ||| ((b1 - 0x80) <<< 6) ||| (b2 - 0x80)
          if 0x800 ≤ c ∧ ¬(0xD800 ≤ c ∧ c ≤ 0xDFFF) then some (c, 3) else none
        else none
      | _, _ => none
    else if 0xF0 ≤ b0 ∧ b0 ≤ 0xF4 then
      match bytes[i + 1]?, bytes[i + 2]?, bytes[i + 3]? with
      | some b1, some b2, some b3 =>
        if (0x80 ≤ b1 ∧ b1 ≤ 0xBF) ∧ (0x80 ≤ b2 ∧ b2 ≤ 0xBF) ∧ (0x80 ≤ b3 ∧ b3 ≤ 0xBF) then
          let c := ((b0 - 0xF0) <<< 18) ||| ((b1 - 0x80) <<< 12) ||| ((b2 - 0x80) <<< 6) ||| (b3 - 0x80)
          if 0x10000 ≤ c ∧ c ≤ 0x10FFFF then some (c, 4) else none
        else none
      | _, _, _ => none
    else none

/-- Fuelled UTF-8 decoding loop for `utf8Decode`. -/
def utf8DecodeAux (bytes : List Nat) : Nat → Nat → String → Option String
  | 0, i, acc => if i = bytes.length then some acc else none
  | fuel + 1, i, acc =>
    if i = bytes.length then some acc
    else
      match utf8Step bytes i with
      | none => none
      | some (c, k) => utf8DecodeAux bytes fuel (i + k) (acc.push (Char.ofNat c))

/-- Model of `String::from_utf8`: `Ok` with the decoded text on valid UTF-8,
`Err` on an invalid sequence (the `Err` message of the source is fixed). -/
def utf8Decode (bytes : List Nat) : RustResult String String :=
  match utf8DecodeAux bytes bytes.length 0 "" with
  | some s => .Ok s
  | none => .Err "Failed to decode UTF-8 string"

/-- The codepage loop of `RawBlob::bytes_to_string` (`blob.rs` lines
206-240), position `i`, accumulated `result` in `acc`.  A byte pair is a
2-byte escape when the *next* byte has top bits `11` and the *current* byte
has low bit `1`; the escape code handed to `decode_2bytes` is
`((ch2 as u16) & !0xC0) << 7 | (ch1 >> 1)` (note `!0xC0` on `u16` is
`0xFF3F`).  A current byte with top bits `11` that is not part of such a
pair is a dangling escape lead: a *recoverable* `Err`, not an abort. -/
def bytesToStringAux (maps : CharacterMaps) (bytes : List Nat) (i : Nat) (acc : String) :
    Except String (RustResult String String) :=
  if h : i < bytes.length then
    let ch1 := bytes.getD i 0
    if h2 : i + 1 < bytes.length then
      let ch2 := bytes.getD (i + 1) 0
      if (ch2 &&& 0xC0 = 0xC0) ∧ (ch1 &&& 0x01 = 0x01) then do
        let u ← maps.decode_2bytes (((ch2 &&& 0xFF3F) <<< 7) ||| (ch1 >>> 1))
        bytesToStringAux maps bytes (i + 2) (appendFragment acc u)
      else if ch1 &&& 0xC0 = 0xC0 then
        .ok (.Err (danglingMsg acc bytes))
      else do
        let u ← maps.decode_byte ch1
        bytesToStringAux maps bytes (i + 1) (appendFragment acc u)
    else if ch1 &&& 0xC0 = 0xC0 then
      .ok (.Err (danglingMsg acc bytes))
    else do
      let u ← maps.decode_byte ch1
      bytesToStringAux maps bytes (i + 1) (appendFragment acc u)
  else .ok (.Ok acc)
termination_by bytes.length - i

/-- `RawBlob::bytes_to_string`: UTF-8 short-circuit, otherwise the codepage
walk. -/
def bytesToString (maps : CharacterMaps) (bytes : List Nat) :
    Except String (RustResult String String) :=
  if maps.is_utf8 then .ok (utf8Decode bytes)
  else bytesToStringAux maps bytes 0 ""

/-- The scanning loop of `RawBlob::get_bytes` (`blob.rs` lines 160-172):
from `i` up to `fin`, collect bytes until the first NUL; the NUL itself is
consumed (position advanced past it) but not collected.  Returns the
collected bytes and the final position, so the caller can tag `[off, i)` as
`Text`. -/
def getBytesGo (data : List Nat) : Nat → Nat → List Nat →
    Except String (List Nat × Nat)
  | 0, i, acc => .ok (acc, i)
  | count + 1, i, acc =>
    match data[i]? with
    | none => .error "index out of bounds"
    | some ch =>
      if ch = 0 then .ok (acc, i + 1)
      else getBytesGo data count (i + 1) (acc ++ [ch])

/-- The scanning loop with its bound expressed as the position range. -/
def getBytesAux (data : List Nat) (i fin : Nat) (acc : List Nat) :
    Except String (List Nat × Nat) :=
  getBytesGo data (fin - i) i acc

/-- `RawBlob::get_bytes`: scan, then tag the scanned span as `Text`. -/
def getBytes (data : List Nat) (regions : List BlobRegions) (off maxLength : Nat) :
    Except String (List Nat × List BlobRegions) := do
  let (bytes, i) ← getBytesAux data off (off + maxLength) []
  let regs ← addRegion regions off i BlobRegions.Text
  pure (bytes, regs)

/-- The fixed sentinel returned for offset 0. -/
def noStringSentinel : String := "[-- no string --]"

/-- The fixed sentinel returned for a zero-length string. -/
def emptyStringSentinel : String := "[-- empty string --]"

/-- `RawBlob::get_string` (`blob.rs` lines 179-195).  Offset 0 is the
"no string" sentinel (a success); a zero-length scan is the "empty string"
sentinel; otherwise the bytes go to the character decoder.  The
string-duplication statistics (`add_string`) have no observable effect on
any claim and are not tracked; the region statistics are. -/
def getString (maps : CharacterMaps) (data : List Nat) (regions : List BlobRegions)
    (off maxLength : Nat) : Except String (RustResult String String × List BlobRegions) :=
  if off = 0 then .ok (.Ok noStringSentinel, regions)
  else do
    let (bytes, regs) ← getBytes data regions off maxLength
    if bytes.length = 0 then .ok (.Ok emptyStringSentinel, regs)
    else do
      let r ← bytesToString maps bytes
      pure (r, regs)

/-- Rust `u32 as i32`: two's-complement wrap of a value below `2^32`. -/
def i32OfU32 (x : Nat) : Int :=
  if x < 2147483648 then (x : Int) else (x : Int) - 4294967296

/-- Rust `i32` negation with release-build wrap semantics: `-i32::MIN` wraps
back to `i32::MIN` (a debug build would abort there instead; the only raw
mnemonic value that reaches the wrap is `0x7FFFFFFF`). -/
def i32WrapNeg (x : Int) : Int :=
  if x = -2147483648 then x else -x

/-- The signed-key derivation of `MnemonicIndexEntry::load` (`mnemonics.rs`
lines 133-137): raw values above `0x7FFFFFF` become
`-((0xFFFFFFFF - value) as i32)`, everything else is passed through. -/
def mnemonicKeyOfRaw (value : Nat) : Int :=
  if value > 0x7FFFFFF then i32WrapNeg (i32OfU32 (0xFFFFFFFF - value))
  else (value : Int)

/-- What the specification's words "two's-complement reinterpretation" of an
unsigned 32-bit value denote (this definition follows the claim, not the
source; it is compared against `mnemonicKeyOfRaw`). -/
def twosComplement32 (value : Nat) : Int :=
  if value < 2147483648 then (value : Int) else (value : Int) - 4294967296

/-- `MnemonicIndexEntry` (`mnemonics.rs`): signed key and two string
offsets.  The `RawBlob` handle is omitted (see module conventions). -/
structure MnemonicIndexEntry where
  value : Int
  caption_off : Nat
  tooltip_off : Nat
deriving DecidableEq, Repr

/-- `MnemonicIndex`: a map from signed mnemonic value to entry. -/
structure MnemonicIndex where
  values : List (Int × MnemonicIndexEntry)
deriving DecidableEq, Repr

/-- `MnemonicIndex::empty`. -/
def MnemonicIndex.empty : MnemonicIndex := ⟨[]⟩

/-- `MnemonicIndexEntry::load` (`mnemonics.rs` lines 127-151): a 4-byte LE
value, a 3-byte caption offset and a 3-byte tooltip offset; the key is the
signed reinterpretation of the value.  (`caption_off == 0` only prints a
warning.) -/
def MnemonicIndexEntry.load (fb : FileBlob) :
    Except String ((Int × MnemonicIndexEntry) × FileBlob) := do
  let (value, fb1) ← fb.read_le_4bytes BlobRegions.Mnemonics
  let (caption_off, fb2) ← fb1.read_le_3bytes BlobRegions.Mnemonics
  let (tooltip_off, fb3) ← fb2.read_le_3bytes BlobRegions.Mnemonics
  let key := mnemonicKeyOfRaw value
  pure ((key, ⟨key, caption_off, tooltip_off⟩), fb3)

/-- The plain record stream of a mnemonic table: `n` consecutive
`MnemonicIndexEntry::load`s with no map bookkeeping.  `MnemonicIndex::from`
performs exactly these reads, interleaved with `values.insert`. -/
def mnemonicRecords : FileBlob → Nat → Except String (List (Int × MnemonicIndexEntry) × FileBlob)
  | fb, 0 => .ok ([], fb)
  | fb, n + 1 => do
    let (r, fb1) ← MnemonicIndexEntry.load fb
    let (rs, fb2) ← mnemonicRecords fb1 n
    pure (r :: rs, fb2)

/-- The record loop of `MnemonicIndex::from` (`mnemonics.rs` lines 60-68):
load, insert, and abort when `insert` returns a previous value
("Two entries with same mnemonic!"). -/
def mnemonicLoop : FileBlob → Nat → List (Int × MnemonicIndexEntry) →
    Except String (List (Int × MnemonicIndexEntry) × FileBlob)
  | fb, 0, m => .ok (m, fb)
  | fb, n + 1, m => do
    let ((k, e), fb1) ← MnemonicIndexEntry.load fb
    let r := hmInsert m k e
    if r.1 ≠ none then .error ("Two entries with same mnemonic! item=" ++ toString k)
    else mnemonicLoop fb1 n r.2

/-- `MnemonicIndex::new`: `assert_eq!` that every map key equals the entry's
own value field. -/
def MnemonicIndex.new (values : List (Int × MnemonicIndexEntry)) :
    Except String MnemonicIndex :=
  if values.all (fun p => p.1 = p.2.value) then .ok ⟨values⟩
  else .error "assertion failed: entry key != value"

/-- `MnemonicIndex::validate_schema` for schema 4: the entry length must be
5. -/
def MnemonicIndex.validate_schema (idx_entry_len : Nat) : Except String Unit :=
  if idx_entry_len ≠ 5 then
    .error ("V4 MnemonicIndexEntry wrong size 3 != " ++ toString idx_entry_len)
  else .ok ()

/-- `MnemonicIndex::from` (`mnemonics.rs` lines 48-74): 2-byte count, 1-byte
entry length; an entry length of 0 yields an empty index, otherwise the
length is validated and the duplicate-checking record loop runs. -/
def MnemonicIndex.from (fb : FileBlob) : Except String (MnemonicIndex × FileBlob) := do
  let (num_entries, fb1) ← fb.read_le_2bytes BlobRegions.Mnemonics
  let (idx_entry_len, fb2) ← fb1.read_byte BlobRegions.Mnemonics
  if idx_entry_len ≠ 0 then do
    let _ ← MnemonicIndex.validate_schema idx_entry_len
    let (values, fb3) ← mnemonicLoop fb2 num_entries []
    let idx ← MnemonicIndex.new values
    pure (idx, fb3)
  else do
    let idx ← MnemonicIndex.new []
    pure (idx, fb2)

/-- `ParameterIndexEntry` (`parameters.rs`): parameter number, caption and
tooltip offsets, nested mnemonic table.  The `RawBlob` handle is omitted. -/
structure ParameterIndexEntry where
  param_num : Nat
  caption_off : Nat
  tooltip_off : Nat
  mnemonic : MnemonicIndex
deriving DecidableEq, Repr

/-- `ParameterIndex`: a map from parameter number to entry. -/
structure ParameterIndex where
  params : List (Nat × ParameterIndexEntry)
deriving DecidableEq, Repr

/-- `ParameterIndexEntry::load_v3` (`parameters.rs` lines 235-249): a 2-byte
parameter number that must not exceed 255, then a 3-byte caption offset
(an offset of 0 only prints "Empty slot"); the tooltip offset is 0 and the
mnemonic table is empty. -/
def ParameterIndexEntry.load_v3 (fb : FileBlob) :
    Except String ((Nat × ParameterIndexEntry) × FileBlob) := do
  let (param, fb1) ← fb.read_le_2bytes BlobRegions.Parameters
  if param > 255 then .error ("Out of range param " ++ toString param)
  else do
    let (offset, fb2) ← fb1.read_le_3bytes BlobRegions.Parameters
    pure ((param, ⟨param, offset, 0, MnemonicIndex.empty⟩), fb2)

/-- The plain record stream of a schema-3 parameter table: `n` consecutive
`load_v3`s with no map bookkeeping. -/
def paramRecordsV3 : FileBlob → Nat → Except String (List (Nat × ParameterIndexEntry) × FileBlob)
  | fb, 0 => .ok ([], fb)
  | fb, n + 1 => do
    let (r, fb1) ← ParameterIndexEntry.load_v3 fb
    let (rs, fb2) ← paramRecordsV3 fb1 n
    pure (r :: rs, fb2)

/-- The record loop of `ParameterIndex::from_v3` (`parameters.rs` lines
87-90): load and insert.  The result of `insert` is discarded — a duplicate
parameter number silently replaces the earlier entry. -/
def paramLoopV3 : FileBlob → Nat → List (Nat × ParameterIndexEntry) →
    Except String (List (Nat × ParameterIndexEntry) × FileBlob)
  | fb, 0, m => .ok (m, fb)
  | fb, n + 1, m => do
    let ((k, e), fb1) ← ParameterIndexEntry.load_v3 fb
    paramLoopV3 fb1 n (hmInsert m k e).2

/-- The duplicate/consistency scan of `ParameterIndex::new` (`parameters.rs`
lines 25-40): walk the map, `assert_eq!` key = param number, and abort on a
parameter number seen twice.  (Called on maps whose keys are already unique,
so the duplicate branch can never fire from `from_v3` / `from_v4`.) -/
def paramNewScan : List (Nat × ParameterIndexEntry) → List Nat → Except String Unit
  | [], _ => .ok ()
  | (k, e) :: rest, hits =>
    if k ≠ e.param_num then .error "assertion failed: entry key != param_num"
    else if k ∈ hits then .error "Duplicate parameter number found"
    else paramNewScan rest (k :: hits)

/-- `ParameterIndex::new`. -/
def ParameterIndex.new (params : List (Nat × ParameterIndexEntry)) :
    Except String ParameterIndex := do
  let _ ← paramNewScan params []
  pure ⟨params⟩

/-- `ParameterIndex::validate_schema` (`parameters.rs` lines 156-180). -/
def ParameterIndex.validate_schema (schema idx_entry_len max_str_len : Nat) :
    Except String Unit :=
  match schema with
  | 2 =>
    if idx_entry_len ≠ 6 then
      .error ("V2 ParamIndexEntry wrong size 4 != " ++ toString idx_entry_len)
    else if max_str_len ≠ 32 then .error "Incorrect string len" else .ok ()
  | 3 =>
    if idx_entry_len ≠ 5 then
      .error ("V3 ParamIndexEntry wrong size 3 != " ++ toString idx_entry_len)
    else if max_str_len ≠ 32 then .error "Incorrect string len" else .ok ()
  | 4 =>
    if idx_entry_len ≠ 5 then
      .error ("V4 ParamIndexEntry wrong size 3 != " ++ toString idx_entry_len)
    else if max_str_len ≠ 256 then .error "Incorrect string len" else .ok ()
  | _ => .error "Invalid format"

/-- `ParameterIndex::check_param255` (`parameters.rs` lines 144-150):
remove the fake parameter 255 and surface its caption/tooltip offsets, or
`(0, 0)` when it is absent. -/
def checkParam255 (params : List (Nat × ParameterIndexEntry)) :
    (Nat × Nat) × List (Nat × ParameterIndexEntry) :=
  match hmRemove params 255 with
  | (some fake, rest) => ((fake.caption_off, fake.tooltip_off), rest)
  | (none, rest) => ((0, 0), rest)

/-- The header of `ParameterIndex::from_v3` (`parameters.rs` lines 74-81):
2-byte entry count, 2-byte max string length, 1-byte font family (must
match the root's), 1-byte entry length. -/
def paramHeaderV3 (fb : FileBlob) (root_font_family : Nat) :
    Except String ((Nat × Nat × Nat) × FileBlob) := do
  let (num_entries, fb1) ← fb.read_le_2bytes BlobRegions.Parameters
  let (max_str_len, fb2) ← fb1.read_le_2bytes BlobRegions.Parameters
  let (font_family, fb3) ← fb2.read_byte BlobRegions.Parameters
  let (idx_entry_len, fb4) ← fb3.read_byte BlobRegions.Parameters
  if root_font_family ≠ font_family then .error "Mis-match font_family"
  else pure ((num_entries, max_str_len, idx_entry_len), fb4)

/-- `ParameterIndex::from_v3` (`parameters.rs` lines 73-98): header, then —
for a non-zero entry length — schema validation, the silent-overwrite record
loop and the parameter-255 extraction; a zero entry length yields an empty
index through `ParameterIndex::new`.  Returns the index and the menu
caption/tooltip offsets taken from parameter 255. -/
def ParameterIndex.from_v3 (fb : FileBlob) (root_font_family : Nat) :
    Except String ((ParameterIndex × Nat × Nat) × FileBlob) := do
  let ((num_entries, max_str_len, idx_entry_len), fb1) ← paramHeaderV3 fb root_font_family
  if idx_entry_len ≠ 0 then do
    let _ ← ParameterIndex.validate_schema 3 idx_entry_len max_str_len
    let (params, fb2) ← paramLoopV3 fb1 num_entries []
    let ((caption_off, tooltip_off), params') := checkParam255 params
    pure ((⟨params'⟩, caption_off, tooltip_off), fb2)
  else do
    let idx ← ParameterIndex.new []
    pure ((idx, 0, 0), fb1)

/-- `MenuIndexEntry` (`menus.rs`): menu number, caption/tooltip offsets and
the nested parameter index.  The `RawBlob` handle is omitted. -/
structure MenuIndexEntry where
  menu_num : Nat
  caption_off : Nat
  tooltip_off : Nat
  param_index : ParameterIndex
deriving DecidableEq, Repr

/-- `MenuIndex`: a map from menu number to entry. -/
structure MenuIndex where
  menus : List (Nat × MenuIndexEntry)
deriving DecidableEq, Repr

/-- `MenuIndexEntry::new` (`menus.rs` lines 230-240). -/
def MenuIndexEntry.new (menu_num caption_off tooltip_off : Nat)
    (param_index : ParameterIndex) : MenuIndexEntry :=
  ⟨menu_num, caption_off, tooltip_off, param_index⟩

/-- The body of the per-menu loop of `MenuIndex::from_v3` (`menus.rs` lines
105-116): seek to the menu's offset, parse its schema-3 parameter table, and
build the menu entry from the caption/tooltip offsets that
`ParameterIndex::from_v3` extracted from parameter 255. -/
def MenuIndex.buildEntryV3 (fb : FileBlob) (font_family menu_num offset : Nat) :
    Except String (MenuIndexEntry × FileBlob) := do
  let ((param_index, caption_off, tooltip_off), fb1) ←
    ParameterIndex.from_v3 (fb.set_pos offset) font_family
  pure (MenuIndexEntry.new menu_num caption_off tooltip_off param_index, fb1)

/-- `MenuIndex::read_v3_entries` (`menus.rs` lines 174-184): one 3-byte
offset per menu slot; slot `i` with a non-zero offset becomes menu `i`. -/
def menuRawEntriesV3 (fb : FileBlob) (i : Nat) :
    Nat → Except String (List (Nat × Nat) × FileBlob)
  | 0 => .ok ([], fb)
  | n + 1 => do
    let (offset, fb1) ← fb.read_le_3bytes BlobRegions.Menus
    let (rest, fb2) ← menuRawEntriesV3 fb1 (i + 1) n
    if offset > 0 then pure ((i, offset) :: rest, fb2)
    else pure (rest, fb2)

/-- The duplicate/consistency scan of `MenuIndex::new` (`menus.rs` lines
28-43), analogous to `paramNewScan`. -/
def menuNewScan : List (Nat × MenuIndexEntry) → List Nat → Except String Unit
  | [], _ => .ok ()
  | (k, e) :: rest, hits =>
    if k ≠ e.menu_num then .error "assertion failed: entry key != menu_num"
    else if k ∈ hits then .error "Duplicate menus detected"
    else menuNewScan rest (k :: hits)

/-- `MenuIndex::new`. -/
def MenuIndex.new (menus : List (Nat × MenuIndexEntry)) : Except String MenuIndex := do
  let _ ← menuNewScan menus []
  pure ⟨menus⟩

/-- `MenuIndex::validate_schema` for schema 3 (`menus.rs` lines 157-161):
the entry length must be 3. -/
def MenuIndex.validate_schema_v3 (idx_entry_len : Nat) : Except String Unit :=
  if idx_entry_len ≠ 3 then
    .error ("V3 MenuIndexEntry wrong size 3 != " ++ toString idx_entry_len)
  else .ok ()

/-- The per-menu loop of `MenuIndex::from_v3`. -/
def menuLoopV3 (font_family : Nat) : FileBlob → List (Nat × Nat) →
    List (Nat × MenuIndexEntry) → Except String (List (Nat × MenuIndexEntry) × FileBlob)
  | fb, [], m => .ok (m, fb)
  | fb, (menu_num, offset) :: rest, m => do
    let (entry, fb1) ← MenuIndex.buildEntryV3 fb font_family menu_num offset
    menuLoopV3 font_family fb1 rest (hmInsert m menu_num entry).2

/-- `MenuIndex::from_v3` (`menus.rs` lines 95-118). -/
def MenuIndex.from_v3 (fb : FileBlob) (font_family : Nat) :
    Except String (MenuIndex × FileBlob) := do
  let (num_menus, fb1) ← fb.read_byte BlobRegions.Menus
  let (idx_entry_len, fb2) ← fb1.read_byte BlobRegions.Menus
  let _ ← MenuIndex.validate_schema_v3 idx_entry_len
  let (tmp_info, fb3) ← menuRawEntriesV3 fb2 0 num_menus
  let (menus, fb4) ← menuLoopV3 font_family fb3 tmp_info []
  let idx ← MenuIndex.new menus
  pure (idx, fb4)

/-- `ModeIndexEntry` (`modes.rs`). -/
structure ModeIndexEntry where
  mode_num : Nat
  menu_index : MenuIndex
deriving DecidableEq, Repr

/-- `ModeIndex`. -/
structure ModeIndex where
  modes : List (Nat × ModeIndexEntry)
deriving DecidableEq, Repr

/-- `ProductIndexEntry` (`products.rs`). -/
structure ProductIndexEntry where
  product_id : Nat
  derivative_id_low : Nat
  derivative_id_high : Nat
  flags : Nat
  mode_index : ModeIndex
deriving DecidableEq, Repr

/-- `ProductIndex` (`products.rs`): a map from product id to entry. -/
structure ProductIndex where
  products : List (Nat × ProductIndexEntry)
deriving DecidableEq, Repr

/-- `IntoIterator for &ProductIndex` (`products.rs` lines 186-204): sort the
keys ascending, reverse them, and build the `items` vector in that order.
(`Iterator::next` then pops items off the *end* of this vector, modelled by
`drain`.) -/
def ProductIndex.intoIter (pi : ProductIndex) : List (Nat × ProductIndexEntry) :=
  intoIterItems pi.products

/-- `UnitsIndexEntry` (`units.rs`): unit id, caption and tooltip offsets.
The `RawBlob` handle is omitted. -/
structure UnitsIndexEntry where
  units : Nat
  caption_off : Nat
  tooltip_off : Nat
deriving DecidableEq, Repr

/-- `UnitsIndexEntry::get_caption_off` (`units.rs` lines 137-139). -/
def UnitsIndexEntry.get_caption_off (e : UnitsIndexEntry) : Nat :=
  e.caption_off

/-- `UnitsIndexEntry::get_tooltip_off` (`units.rs` lines 141-143): the body
returns `self.caption_off`. -/
def UnitsIndexEntry.get_tooltip_off (e : UnitsIndexEntry) : Nat :=
  e.caption_off

/-- `KeypadStrIndexEntry` (`keypadstrs.rs`).  The `RawBlob` handle is
omitted. -/
structure KeypadStrIndexEntry where
  caption_off : Nat
deriving DecidableEq, Repr

/-- `KeypadStrIndex`. -/
structure KeypadStrIndex where
  keypad_strs : List (Nat × KeypadStrIndexEntry)
deriving DecidableEq, Repr

/-- `KeypadStrIndex::empty`. -/
def KeypadStrIndex.empty : KeypadStrIndex := ⟨[]⟩

/-- `KeypadStrIndex::validate_schema` (`keypadstrs.rs` lines 62-72). -/
def KeypadStrIndex.validate_schema (schema idx_entry_len max_str_len : Nat) :
    Except String Unit :=
  match schema with
  | 2 =>
    if idx_entry_len ≠ 6 then
      .error ("V2 KeypadStrIndexEntry wrong size 4 != " ++ toString idx_entry_len)
    else if max_str_len ≠ 32 then .error "Keypad string len is incorrect" else .ok ()
  | 3 =>
    if idx_entry_len ≠ 5 then
      .error ("V3 KeypadStrIndexEntry wrong size 3 != " ++ toString idx_entry_len)
    else if max_str_len ≠ 32 then .error "Keypad string len is incorrect" else .ok ()
  | _ => .error "Invalid format"

/-- `KeypadStrIndexEntry::load_v2` (`keypadstrs.rs` lines 114-125): 2-byte
string id and 4-byte offset; a zero offset aborts ("Empty slot").  (The
source reads these bytes through `read_exact` without a region argument —
that call does not type-check against `FileBlob::read_exact`; the evident
intent, tagging with the keypad-strings region, is modelled.) -/
def KeypadStrIndexEntry.load_v2 (fb : FileBlob) :
    Except String ((Nat × KeypadStrIndexEntry) × FileBlob) := do
  let (buf, fb1) ← fb.read_exact 6 BlobRegions.KeypadStrs
  let string_id := le2 buf
  let offset := le4 (buf.drop 2)
  if offset = 0 then .error "Empty slot"
  else pure ((string_id, ⟨offset⟩), fb1)

/-- `KeypadStrIndexEntry::load_v3` (`keypadstrs.rs` lines 127-138): 2-byte
string id and 3-byte offset; a zero offset aborts ("Empty slot"). -/
def KeypadStrIndexEntry.load_v3 (fb : FileBlob) :
    Except String ((Nat × KeypadStrIndexEntry) × FileBlob) := do
  let (buf, fb1) ← fb.read_exact 5 BlobRegions.KeypadStrs
  let string_id := le2 buf
  let offset := le3 (buf.drop 2)
  if offset = 0 then .error "Empty slot"
  else pure ((string_id, ⟨offset⟩), fb1)

/-- The record loop of `KeypadStrIndex::from` (`keypadstrs.rs` lines 44-58):
load per schema, insert, and abort when `insert` returns a previous value
("Two entries with same keypad strings!"). -/
def keypadLoop (schema : Nat) : FileBlob → Nat → List (Nat × KeypadStrIndexEntry) →
    Except String (List (Nat × KeypadStrIndexEntry) × FileBlob)
  | fb, 0, m => .ok (m, fb)
  | fb, n + 1, m => do
    let (r, fb1) ←
      match schema with
      | 2 => KeypadStrIndexEntry.load_v2 fb
      | 3 => KeypadStrIndexEntry.load_v3 fb
      | _ => .error "Invalid schema"
    let ins := hmInsert m r.1 r.2
    if ins.1 ≠ none then .error "Two entries with same keypad strings!"
    else keypadLoop schema fb1 n ins.2

/-- `KeypadStrIndex::from` (`keypadstrs.rs` lines 27-60): a 6-byte header
(2-byte count, 2-byte max string length, font family, entry length), the
font-family match, schema validation and the duplicate-checking loop. -/
def KeypadStrIndex.from (fb : FileBlob) (schema root_font_family : Nat) :
    Except String (KeypadStrIndex × FileBlob) := do
  let (header, fb1) ← fb.read_exact 6 BlobRegions.KeypadStrs
  let num_entries := le2 header
  let max_str_len := le2 (header.drop 2)
  let font_family := header.getD 4 0
  let idx_entry_len := header.getD 5 0
  if root_font_family ≠ font_family then .error "Mis-match font_family"
  else do
    let _ ← KeypadStrIndex.validate_schema schema idx_entry_len max_str_len
    let (keypad_strs, fb2) ← keypadLoop schema fb1 num_entries []
    pure (⟨keypad_strs⟩, fb2)

/-- `Language::parse_offsets` (`language.rs` lines 186-217): the four
top-level table offsets.  Schema 2 reads a 16-byte header but combines only
the first 3 bytes of each 4-byte slot (`little_endian_3_bytes` ignores the
fourth byte of the slice it is handed); schema 3 reads four packed 3-byte
offsets; schema 4 reads three packed 3-byte offsets and fixes the
keypad-strings slot (index 2) at 0. -/
def Language.parse_offsets (fb : FileBlob) (schema : Nat) :
    Except String (List Nat × FileBlob) :=
  match schema with
  | 2 => do
    let (header, fb1) ← fb.read_exact 16 BlobRegions.Header
    pure ([le3 header, le3 (header.drop 4), le3 (header.drop 8), le3 (header.drop 12)], fb1)
  | 3 => do
    let (header, fb1) ← fb.read_exact 12 BlobRegions.Header
    pure ([le3 header, le3 (header.drop 3), le3 (header.drop 6), le3 (header.drop 9)], fb1)
  | 4 => do
    let (header, fb1) ← fb.read_exact 9 BlobRegions.Header
    pure ([le3 header, le3 (header.drop 3), 0, le3 (header.drop 6)], fb1)
  | _ => .error "Invalid format"

/-- The keypad-strings stage of `Language::from` (`language.rs` lines
83-90): a positive offset is followed and parsed; a zero offset is fatal
("Missing Keypad strings in V2 language file") under schema 2 and yields the
empty table otherwise. -/
def Language.keypadStage (fb : FileBlob) (schema font_family off : Nat) :
    Except String (KeypadStrIndex × FileBlob) :=
  if off > 0 then KeypadStrIndex.from (fb.set_pos off) schema font_family
  else if schema = 2 then .error "Missing Keypad strings in V2 language file"
  else .ok (KeypadStrIndex.empty, fb)

/-! ## Concrete inputs used by the witnesses and counterexamples -/

/-- A codepage-mode character map whose lookups are total: each code decodes
to its decimal rendering. -/
def cmapsTest : CharacterMaps :=
  ⟨false, fun c => .ok (some (toString c)), fun c => .ok (some (toString c))⟩

/-- A schema-3 parameter table whose two records share parameter number 7:
header (count 2, max string length 32, font family 0, entry length 5)
followed by records (7, offset 1) and (7, offset 2). -/
def cfbParamDup : FileBlob :=
  ⟨[2, 0, 32, 0, 0, 5, 7, 0, 1, 0, 0, 7, 0, 2, 0, 0],
   List.replicate 16 BlobRegions.Empty, 0⟩

/-- `cfbParamDup` after its 6-byte header has been consumed. -/
def cfbParamDupH : FileBlob :=
  ⟨cfbParamDup.data,
   List.replicate 6 BlobRegions.Parameters ++ List.replicate 10 BlobRegions.Empty, 6⟩

/-- `cfbParamDup` after the whole table has been consumed. -/
def cfbParamDupEnd : FileBlob :=
  ⟨cfbParamDup.data, List.replicate 16 BlobRegions.Parameters, 16⟩

/-- A schema-4 mnemonic table whose two records share raw value 5: header
(count 2, entry length 5) followed by records (5, caption 1, tooltip 0) and
(5, caption 2, tooltip 0). -/
def cfbMnDup : FileBlob :=
  ⟨[2, 0, 5, 5, 0, 0, 0, 1, 0, 0, 0, 0, 0, 5, 0, 0, 0, 2, 0, 0, 0, 0, 0],
   List.replicate 23 BlobRegions.Empty, 0⟩

/-- `cfbMnDup` after its entry count has been consumed. -/
def cfbMnDup1 : FileBlob :=
  ⟨cfbMnDup.data,
   List.replicate 2 BlobRegions.Mnemonics ++ List.replicate 21 BlobRegions.Empty, 2⟩

/-- `cfbMnDup` after its 3-byte header has been consumed. -/
def cfbMnDup2 : FileBlob :=
  ⟨cfbMnDup.data,
   List.replicate 3 BlobRegions.Mnemonics ++ List.replicate 20 BlobRegions.Empty, 3⟩

/-- `cfbMnDup` after the whole table has been consumed. -/
def cfbMnDup3 : FileBlob :=
  ⟨cfbMnDup.data, List.replicate 23 BlobRegions.Mnemonics, 23⟩

/-- A schema-3 parameter table holding only the fake parameter 255 with
caption offset 9: header (count 1, max string length 32, font family 0,
entry length 5) followed by the record (255, offset 9). -/
def cfbP255 : FileBlob :=
  ⟨[1, 0, 32, 0, 0, 5, 255, 0, 9, 0, 0], List.replicate 11 BlobRegions.Empty, 0⟩

/-- `cfbP255` after its 6-byte header has been consumed. -/
def cfbP255H : FileBlob :=
  ⟨cfbP255.data,
   List.replicate 6 BlobRegions.Parameters ++ List.replicate 5 BlobRegions.Empty, 6⟩

/-- `cfbP255` after the whole table has been consumed. -/
def cfbP255End : FileBlob :=
  ⟨cfbP255.data, List.replicate 11 BlobRegions.Parameters, 11⟩

/-- The fake parameter-255 entry carried by `cfbP255`. -/
def pe255 : ParameterIndexEntry := ⟨255, 9, 0, MnemonicIndex.empty⟩

/-- A 9-byte schema-4 offset header storing offsets 1, 2 and 3. -/
def cfbHdr9 : FileBlob :=
  ⟨[1, 0, 0, 2, 0, 0, 3, 0, 0], List.replicate 9 BlobRegions.Empty, 0⟩

/-- A two-product index inserted in descending key order, for the iteration
counterexample. -/
def exampleProducts : ProductIndex :=
  ⟨[(2, ⟨2, 0, 65535, 0, ⟨[]⟩⟩), (1, ⟨1, 0, 65535, 0, ⟨[]⟩⟩)]⟩

/-! ## Helper lemmas on the association-map and iterator models -/

theorem hmInsert_fst {K V : Type} [DecidableEq K] (m : List (K × V)) (k : K) (v : V) :
    (hmInsert m k v).1 = hmLookup m k := by
  induction m with
  | nil => simp [hmInsert, hmLookup]
  | cons p rest ih =>
    obtain ⟨k', v'⟩ := p
    by_cases h : k' = k
    · simp [hmInsert, hmLookup, h]
    · simp [hmInsert, hmLookup, h, ih]

theorem hmLookup_insert_self {K V : Type} [DecidableEq K] (m : List (K × V)) (k : K) (v : V) :
    hmLookup (hmInsert m k v).2 k = some v := by
  induction m with
  | nil => simp [hmInsert, hmLookup]
  | cons p rest ih =>
    obtain ⟨k', v'⟩ := p
    by_cases h : k' = k
    · simp [hmInsert, hmLookup, h]
    · simp [hmInsert, hmLookup, h, ih]

theorem hmLookup_insert_ne {K V : Type} [DecidableEq K] (m : List (K × V)) (k k' : K) (v : V)
    (h : k' ≠ k) : hmLookup (hmInsert m k' v).2 k = hmLookup m k := by
  induction m with
  | nil => simp [hmInsert, hmLookup, h]
  | cons p rest ih =>
    obtain ⟨k₀, v₀⟩ := p
    by_cases h0 : k₀ = k'
    · subst h0
      simp [hmInsert, hmLookup, h]
    · by_cases h1 : k₀ = k
      · subst h1
        simp [hmInsert, hmLookup, h0, hmLookup, Ne.symm h]
      · simp [hmInsert, hmLookup, h0, h1, ih]

theorem hmLookup_isSome_of_mem {K V : Type} [DecidableEq K] {m : List (K × V)} {k : K}
    (h : k ∈ m.map Prod.fst) : ∃ v, hmLookup m k = some v := by
  induction m with
  | nil => simp at h
  | cons p rest ih =>
    obtain ⟨k', v'⟩ := p
    by_cases hk : k' = k
    · exact ⟨v', by simp [hmLookup, hk]⟩
    · have : k ∈ rest.map Prod.fst := by
        rcases List.mem_map.mp h with ⟨q, hq, hfst⟩
        rcases List.mem_cons.mp hq with h1 | h1
        · exact absurd (by rw [h1] at hfst; exact hfst) hk
        · exact List.mem_map.mpr ⟨q, h1, hfst⟩
      rcases ih this with ⟨v, hv⟩
      exact ⟨v, by simp [hmLookup, hk, hv]⟩

theorem hmInsert_mem_keys {K V : Type} [DecidableEq K] (m : List (K × V)) (k a : K) (v : V) :
    a ∈ ((hmInsert m k v).2).map Prod.fst ↔ a ∈ m.map Prod.fst ∨ a = k := by
  induction m with
  | nil => simp [hmInsert]
  | cons p rest ih =>
    obtain ⟨k', v'⟩ := p
    by_cases h : k' = k
    · subst h
      simp [hmInsert]
      tauto
    · simp [hmInsert, h, ih]
      tauto

theorem hmInsert_nodup {K V : Type} [DecidableEq K] (m : List (K × V)) (k : K) (v : V)
    (h : (m.map Prod.fst).Nodup) : (((hmInsert m k v).2).map Prod.fst).Nodup := by
  induction m with
  | nil => simp [hmInsert]
  | cons p rest ih =>
    obtain ⟨k', v'⟩ := p
    simp only [List.map_cons, List.nodup_cons] at h
    by_cases hk : k' = k
    · subst hk
      simpa [hmInsert, List.nodup_cons] using h
    · have := ih h.2
      simp only [hmInsert, hk, if_false, List.map_cons, List.nodup_cons]
      refine ⟨?_, this⟩
      intro hmem
      rcases (hmInsert_mem_keys rest k k' v).mp hmem with h1 | h1
      · exact h.1 h1
      · exact hk h1

theorem hmRemove_fst {K V : Type} [DecidableEq K] (m : List (K × V)) (k : K) :
    (hmRemove m k).1 = hmLookup m k := by
  induction m with
  | nil => simp [hmRemove, hmLookup]
  | cons p rest ih =>
    obtain ⟨k', v'⟩ := p
    by_cases h : k' = k
    · simp [hmRemove, hmLookup, h]
    · simp [hmRemove, hmLookup, h, ih]

theorem hmRemove_not_mem {K V : Type} [DecidableEq K] (m : List (K × V)) (k : K)
    (h : (m.map Prod.fst).Nodup) : k ∉ ((hmRemove m k).2).map Prod.fst := by
  induction m with
  | nil => simp [hmRemove]
  | cons p rest ih =>
    obtain ⟨k', v'⟩ := p
    simp only [List.map_cons, List.nodup_cons] at h
    by_cases hk : k' = k
    · subst hk
      simpa [hmRemove] using h.1
    · simp only [hmRemove, hk, if_false, List.map_cons, List.mem_cons]
      push_neg
      exact ⟨fun he => hk he.symm, ih h.2⟩

theorem hmLookup_eq_none_of_not_mem {K V : Type} [DecidableEq K] {m : List (K × V)} {k : K}
    (h : k ∉ m.map Prod.fst) : hmLookup m k = none := by
  induction m with
  | nil => rfl
  | cons p rest ih =>
    obtain ⟨k', v'⟩ := p
    simp only [List.map_cons, List.mem_cons] at h
    push_neg at h
    simp [hmLookup, Ne.symm h.1, ih h.2]

theorem vecPop_eq {α : Type} (l : List α) :
    vecPop l =
      match l.reverse with
      | [] => none
      | a :: rest => some (a, rest.reverse) := by
  induction l with
  | nil => rfl
  | cons x xs ih =>
    cases hxs : xs.reverse with
    | nil =>
      have : xs = [] := by simpa using congrArg List.reverse hxs
      subst this
      rfl
    | cons a rest =>
      have hx : vecPop xs = some (a, rest.reverse) := by rw [ih, hxs]
      have hrev : (x :: xs).reverse = a :: (rest ++ [x]) := by
        simp [List.reverse_cons, hxs]
      simp only [vecPop, hx, hrev, List.reverse_append]
      rfl

theorem drainAux_eq_reverse {α : Type} :
    ∀ (n : Nat) (l : List α), l.length ≤ n → drainAux n l = l.reverse := by
  intro n
  induction n with
  | zero =>
    intro l hl
    have : l = [] := List.length_eq_zero.mp (Nat.le_zero.mp hl)
    subst this
    rfl
  | succ n ih =>
    intro l hl
    cases hrev : l.reverse with
    | nil =>
      have : l = [] := by simpa using congrArg List.reverse hrev
      subst this
      rfl
    | cons a rest =>
      have hpop : vecPop l = some (a, rest.reverse) := by rw [vecPop_eq, hrev]
      have hlen : rest.reverse.length ≤ n := by
        have h1 : l.reverse.length = l.length := List.length_reverse l
        rw [hrev] at h1
        simp only [List.length_cons] at h1
        simp only [List.length_reverse]
        omega
      simp only [drainAux, hpop, hrev]
      rw [ih rest.reverse hlen, List.reverse_reverse]

theorem drain_eq_reverse {α : Type} (l : List α) : drain l = l.reverse :=
  drainAux_eq_reverse l.length l (Nat.le_refl _)

theorem filterMap_lookup_fst {K V : Type} [DecidableEq K] (m : List (K × V)) :
    ∀ (ks : List K), (∀ k ∈ ks, k ∈ m.map Prod.fst) →
    (ks.filterMap (fun k => (hmLookup m k).map (fun v => (k, v)))).map Prod.fst = ks := by
  intro ks
  induction ks with
  | nil => intro _; rfl
  | cons k rest ih =>
    intro h
    rcases hmLookup_isSome_of_mem (h k (List.mem_cons_self _ _)) with ⟨v, hv⟩
    have ih' := ih fun a ha => h a (List.mem_cons_of_mem _ ha)
    simp [List.filterMap_cons, hv, ih']

theorem drain_intoIterItems_fst {K V : Type} [LinearOrder K] (m : List (K × V)) :
    (drain (intoIterItems m)).map Prod.fst =
      List.insertionSort (· ≤ ·) (m.map Prod.fst) := by
  unfold intoIterItems
  rw [drain_eq_reverse, List.map_reverse,
    filterMap_lookup_fst m _ (fun k hk =>
      (List.mem_insertionSort _).mp (List.mem_reverse.mp hk)),
    List.reverse_reverse]

/-! ## Lemmas about region tagging (`_Blob::add_region`) -/

theorem set_eq_self_of_getElem? {α : Type} (l : List α) (n : Nat) (a : α)
    (h : l[n]? = some a) : l.set n a = l := by
  apply List.ext_getElem?
  intro j
  by_cases hj : n = j
  · subst hj
    rw [List.getElem?_set_eq_of_lt a (List.getElem?_eq_some.mp h).1]
    exact h.symm
  · exact List.getElem?_set_ne hj

theorem addRegion_step_empty (regions : List BlobRegions) (start fin : Nat) (t : BlobRegions)
    (h : start < fin) (h1 : regions[start]? = some BlobRegions.Empty) :
    addRegion regions start fin t = addRegion (regions.set start t) (start + 1) fin t := by
  have hc : fin - start = (fin - (start + 1)) + 1 := by omega
  rw [addRegion, addRegion, hc]
  simp [addRegionGo, h1]

theorem addRegion_step_same (regions : List BlobRegions) (start fin : Nat) (t : BlobRegions)
    (h : start < fin) (h1 : regions[start]? = some t) (ht : t ≠ BlobRegions.Empty) :
    addRegion regions start fin t = addRegion regions (start + 1) fin t := by
  have hc : fin - start = (fin - (start + 1)) + 1 := by omega
  rw [addRegion, addRegion, hc]
  simp [addRegionGo, h1, ht]

theorem addRegion_step_compat (regions : List BlobRegions) (start fin : Nat) (t : BlobRegions)
    (h : start < fin)
    (h1 : regions[start]? = some BlobRegions.Empty ∨ regions[start]? = some t) :
    addRegion regions start fin t = addRegion (regions.set start t) (start + 1) fin t := by
  rcases h1 with h1 | h1
  · exact addRegion_step_empty regions start fin t h h1
  · by_cases ht : t = BlobRegions.Empty
    · subst ht
      exact addRegion_step_empty regions start fin _ h h1
    · rw [addRegion_step_same regions start fin t h h1 ht,
        set_eq_self_of_getElem? regions start t h1]

theorem addRegion_ok_of_compat (fin : Nat) (t : BlobRegions) :
    ∀ (d start : Nat) (regions : List BlobRegions), fin - start = d →
    (∀ i, start ≤ i → i < fin →
      regions[i]? = some BlobRegions.Empty ∨ regions[i]? = some t) →
    fin ≤ regions.length →
    ∃ regs', addRegion regions start fin t = .ok regs' ∧
      regs'.length = regions.length ∧
      ∀ j, regs'[j]? = if start ≤ j ∧ j < fin then some t else regions[j]? := by
  intro d
  induction d with
  | zero =>
    intro start regions hd _ _
    have hfs : fin ≤ start := by omega
    refine ⟨regions, ?_, rfl, ?_⟩
    · rw [addRegion, (by omega : fin - start = 0)]
      rfl
    · intro j
      have : ¬(start ≤ j ∧ j < fin) := by omega
      simp [this]
  | succ d ih =>
    intro start regions hd hcompat hlen
    have hlt : start < fin := by omega
    have hstart_lt : start < regions.length := by omega
    have hstep := addRegion_step_compat regions start fin t hlt
      (hcompat start (Nat.le_refl _) hlt)
    have hcompat₁ : ∀ i, start + 1 ≤ i → i < fin →
        (regions.set start t)[i]? = some BlobRegions.Empty ∨
        (regions.set start t)[i]? = some t := by
      intro i hi1 hi2
      rw [List.getElem?_set_ne (by omega)]
      exact hcompat i (by omega) hi2
    have hlen₁ : fin ≤ (regions.set start t).length := by
      rw [List.length_set]
      exact hlen
    rcases ih (start + 1) (regions.set start t) (by omega) hcompat₁ hlen₁ with
      ⟨regs', hok, hlen', hget⟩
    refine ⟨regs', by rw [hstep]; exact hok, by rw [hlen', List.length_set], ?_⟩
    intro j
    by_cases hj : start + 1 ≤ j ∧ j < fin
    · have : start ≤ j ∧ j < fin := by omega
      rw [hget j, if_pos hj, if_pos this]
    · rw [hget j, if_neg hj]
      by_cases hj2 : j = start
      · rw [if_pos (by omega : start ≤ j ∧ j < fin), hj2]
        exact List.getElem?_set_eq_of_lt t hstart_lt
      · rw [List.getElem?_set_ne (fun he => hj2 he.symm)]
        have : ¬(start ≤ j ∧ j < fin) := by omega
        rw [if_neg this]

theorem addRegion_error_of_conflict (fin : Nat) (t : BlobRegions) :
    ∀ (d start : Nat) (regions : List BlobRegions) (i : Nat) (r : BlobRegions),
    i - start = d → start ≤ i → i < fin →
    regions[i]? = some r → r ≠ BlobRegions.Empty → r ≠ t →
    (∀ j, start ≤ j → j < i →
      regions[j]? = some BlobRegions.Empty ∨ regions[j]? = some t) →
    addRegion regions start fin t = .error "Region type mismatch" := by
  intro d
  induction d with
  | zero =>
    intro start regions i r hd h1 h2 hget hne hnt _
    have : i = start := by omega
    subst this
    have hc : fin - i = (fin - (i + 1)) + 1 := by omega
    rw [addRegion, hc]
    simp [addRegionGo, hget, hne, hnt]
  | succ d ih =>
    intro start regions i r hd h1 h2 hget hne hnt hprior
    have hst : start < i := by omega
    have hlt : start < fin := by omega
    rw [addRegion_step_compat regions start fin t hlt
      (hprior start (Nat.le_refl _) hst)]
    apply ih (start + 1) (regions.set start t) i r (by omega) (by omega) h2
    · rw [List.getElem?_set_ne (by omega)]
      exact hget
    · exact hne
    · exact hnt
    · intro j hj1 hj2
      rw [List.getElem?_set_ne (by omega)]
      exact hprior j (by omega) hj2

/-! ## Lemmas about the record loops (duplicate handling) -/

@[simp]
theorem except_bind_ok {ε α β : Type} (a : α) (f : α → Except ε β) :
    (Except.ok a >>= f) = f a := rfl

@[simp]
theorem except_bind_error {ε α β : Type} (e : ε) (f : α → Except ε β) :
    ((Except.error e : Except ε α) >>= f) = .error e := rfl

@[simp]
theorem except_pure_eq {ε α : Type} (a : α) : (pure a : Except ε α) = .ok a := rfl

theorem mnemonicLoop_error_of_hit :
    ∀ (n : Nat) (fb : FileBlob) (recs : List (Int × MnemonicIndexEntry)) (fb₂ : FileBlob)
      (m : List (Int × MnemonicIndexEntry)),
    mnemonicRecords fb n = .ok (recs, fb₂) →
    (∃ k ∈ recs.map Prod.fst, (hmLookup m k).isSome) →
    ∃ msg, mnemonicLoop fb n m = .error msg := by
  intro n
  induction n with
  | zero =>
    intro fb recs fb₂ m hrec hk
    rw [mnemonicRecords] at hrec
    injection hrec with h
    injection h with h1 _
    rw [← h1] at hk
    simp at hk
  | succ n ih =>
    intro fb recs fb₂ m hrec hk
    rw [mnemonicRecords] at hrec
    cases hload : MnemonicIndexEntry.load fb with
    | error e =>
      rw [hload] at hrec
      simp at hrec
    | ok p =>
      obtain ⟨⟨k₁, e₁⟩, fb₁⟩ := p
      rw [hload] at hrec
      simp only [except_bind_ok] at hrec
      cases hrecs : mnemonicRecords fb₁ n with
      | error e =>
        rw [hrecs] at hrec
        simp at hrec
      | ok q =>
        obtain ⟨recs', fb₂'⟩ := q
        rw [hrecs] at hrec
        simp only [except_bind_ok, except_pure_eq] at hrec
        injection hrec with h
        injection h with h1 h2
        subst h2
        rw [mnemonicLoop, hload, except_bind_ok]
        simp only []
        rcases hk with ⟨k, hkmem, hksome⟩
        rw [← h1] at hkmem
        simp only [List.map_cons, List.mem_cons] at hkmem
        by_cases hins : (hmInsert m k₁ e₁).1 ≠ none
        · exact ⟨_, by rw [if_pos hins]⟩
        · rw [if_neg hins]
          rcases hkmem with hkk | hkmem
        -- the key revisits the freshly inserted record, or a later duplicate
          · subst hkk
            rw [hmInsert_fst] at hins
            push_neg at hins
            rw [hins] at hksome
            simp at hksome
          · apply ih fb₁ recs' fb₂' _ hrecs
            refine ⟨k, hkmem, ?_⟩
            by_cases hkk : k₁ = k
            · subst hkk
              rw [hmLookup_insert_self]
              rfl
            · rw [hmLookup_insert_ne m k k₁ e₁ hkk]
              exact hksome

theorem mnemonicLoop_error_of_dup :
    ∀ (n : Nat) (fb : FileBlob) (recs : List (Int × MnemonicIndexEntry)) (fb₂ : FileBlob)
      (m : List (Int × MnemonicIndexEntry)),
    mnemonicRecords fb n = .ok (recs, fb₂) →
    ¬ (recs.map Prod.fst).Nodup →
    ∃ msg, mnemonicLoop fb n m = .error msg := by
  intro n
  induction n with
  | zero =>
    intro fb recs fb₂ m hrec hnd
    rw [mnemonicRecords] at hrec
    injection hrec with h
    injection h with h1 _
    rw [← h1] at hnd
    simp at hnd
  | succ n ih =>
    intro fb recs fb₂ m hrec hnd
    rw [mnemonicRecords] at hrec
    cases hload : MnemonicIndexEntry.load fb with
    | error e =>
      rw [hload] at hrec
      simp at hrec
    | ok p =>
      obtain ⟨⟨k₁, e₁⟩, fb₁⟩ := p
      rw [hload] at hrec
      simp only [except_bind_ok] at hrec
      cases hrecs : mnemonicRecords fb₁ n with
      | error e =>
        rw [hrecs] at hrec
        simp at hrec
      | ok q =>
        obtain ⟨recs', fb₂'⟩ := q
        rw [hrecs] at hrec
        simp only [except_bind_ok, except_pure_eq] at hrec
        injection hrec with h
        injection h with h1 h2
        rw [← h1] at hnd
        simp only [List.map_cons, List.nodup_cons] at hnd
        push_neg at hnd
        rw [mnemonicLoop, hload, except_bind_ok]
        simp only []
        by_cases hins : (hmInsert m k₁ e₁).1 ≠ none
        · exact ⟨_, by rw [if_pos hins]⟩
        · rw [if_neg hins]
          by_cases hmem : k₁ ∈ recs'.map Prod.fst
          · apply mnemonicLoop_error_of_hit n fb₁ recs' fb₂' _ hrecs
            refine ⟨k₁, hmem, ?_⟩
            rw [hmLookup_insert_self]
            rfl
          · exact ih fb₁ recs' fb₂' _ hrecs (hnd hmem)

theorem paramLoopV3_eq_foldl :
    ∀ (n : Nat) (fb : FileBlob) (m : List (Nat × ParameterIndexEntry)),
    paramLoopV3 fb n m = (do
      let (recs, fb₂) ← paramRecordsV3 fb n
      Except.ok (recs.foldl (fun acc r => (hmInsert acc r.1 r.2).2) m, fb₂)) := by
  intro n
  induction n with
  | zero =>
    intro fb m
    rfl
  | succ n ih =>
    intro fb m
    rw [paramLoopV3, paramRecordsV3]
    cases hload : ParameterIndexEntry.load_v3 fb with
    | error e => simp
    | ok p =>
      obtain ⟨⟨k, e⟩, fb₁⟩ := p
      simp only [except_bind_ok]
      rw [ih fb₁]
      cases hrecs : paramRecordsV3 fb₁ n with
      | error e => simp
      | ok q =>
        obtain ⟨recs', fb₂⟩ := q
        simp

theorem foldl_hmInsert_nodup {K V : Type} [DecidableEq K] :
    ∀ (recs : List (K × V)) (m : List (K × V)),
    (m.map Prod.fst).Nodup →
    (((recs.foldl (fun acc r => (hmInsert acc r.1 r.2).2) m)).map Prod.fst).Nodup := by
  intro recs
  induction recs with
  | nil => intro m hm; exact hm
  | cons r rest ih =>
    intro m hm
    exact ih _ (hmInsert_nodup m r.1 r.2 hm)

theorem paramLoopV3_nodup (n : Nat) (fb : FileBlob) (m : List (Nat × ParameterIndexEntry))
    (fb₂ : FileBlob) (h : paramLoopV3 fb n [] = .ok (m, fb₂)) :
    (m.map Prod.fst).Nodup := by
  rw [paramLoopV3_eq_foldl] at h
  cases hrecs : paramRecordsV3 fb n with
  | error e =>
    rw [hrecs] at h
    simp at h
  | ok q =>
    obtain ⟨recs, fb₂'⟩ := q
    rw [hrecs] at h
    simp only [except_bind_ok] at h
    injection h with h
    injection h with h1 _
    rw [← h1]
    exact foldl_hmInsert_nodup recs [] (by simp)

/-! ## Lemmas about the signed mnemonic key -/

theorem mnemonicKeyOfRaw_closed_form (v : Nat) (hv : v < 4294967296) :
    mnemonicKeyOfRaw v =
      if v ≤ 0x7FFFFFF then (v : Int)
      else if v < 2147483648 then i32OfU32 (v + 1)
      else (v : Int) - 4294967295 := by
  unfold mnemonicKeyOfRaw i32WrapNeg i32OfU32
  have hcast : ((0xFFFFFFFF - v : Nat) : Int) = 4294967295 - (v : Int) := by
    omega
  rw [hcast]
  split_ifs <;> omega

/-! ## Claim theorems -/

/-- C10: `UnitsIndexEntry::get_tooltip_off` returns the entry's *caption*
offset — the same value `get_caption_off` returns — rather than the stored
tooltip offset (witnessed by an entry whose tooltip offset differs). -/
theorem units_get_tooltip_off_returns_caption :
    (∀ e : UnitsIndexEntry,
      e.get_tooltip_off = e.get_caption_off ∧ e.get_tooltip_off = e.caption_off)
    ∧ UnitsIndexEntry.get_tooltip_off ⟨1, 2, 3⟩ = 2
    ∧ UnitsIndexEntry.get_tooltip_off ⟨1, 2, 3⟩ ≠
        UnitsIndexEntry.tooltip_off ⟨1, 2, 3⟩ :=
  ⟨fun _ => ⟨rfl, rfl⟩, rfl, by decide⟩

/-- C9: with a keypad-strings offset of 0, document assembly aborts under
schema 2 ("Missing Keypad strings in V2 language file") and yields the empty
keypad table under schema 3; under schema 4 `parse_offsets` always stores 0
in the keypad slot (index 2), so the keypad table is always empty. -/
theorem keypad_zero_offset_by_schema :
    (∀ (fb : FileBlob) (ff : Nat),
      Language.keypadStage fb 2 ff 0 = .error "Missing Keypad strings in V2 language file")
    ∧ (∀ (fb : FileBlob) (ff : Nat),
      Language.keypadStage fb 3 ff 0 = .ok (KeypadStrIndex.empty, fb))
    ∧ (∀ (fb : FileBlob) (offs : List Nat) (fb' : FileBlob),
      Language.parse_offsets fb 4 = .ok (offs, fb') → offs[2]? = some 0)
    ∧ (∀ (fb : FileBlob) (ff : Nat),
      Language.keypadStage fb 4 ff 0 = .ok (KeypadStrIndex.empty, fb)) := by
  refine ⟨fun fb ff => rfl, fun fb ff => rfl, ?_, fun fb ff => rfl⟩
  intro fb offs fb' h
  unfold Language.parse_offsets at h
  cases hre : fb.read_exact 16 BlobRegions.Header with
  | error e =>
    cases hre9 : fb.read_exact 9 BlobRegions.Header with
    | error e9 =>
      rw [hre9] at h
      simp at h
    | ok p =>
      rw [hre9] at h
      obtain ⟨hdr, fb₁⟩ := p
      simp only [except_bind_ok, except_pure_eq] at h
      injection h with h
      injection h with h1 _
      rw [← h1]
      rfl
  | ok p =>
    cases hre9 : fb.read_exact 9 BlobRegions.Header with
    | error e9 =>
      rw [hre9] at h
      simp at h
    | ok q =>
      rw [hre9] at h
      obtain ⟨hdr, fb₁⟩ := q
      simp only [except_bind_ok, except_pure_eq] at h
      injection h with h
      injection h with h1 _
      rw [← h1]
      rfl

/-- Witness for C9: a concrete 9-byte schema-4 offset header parses with 0
in the keypad slot, and the schema-2 / schema-3 zero-offset behaviors at a
concrete blob. -/
theorem keypad_zero_offset_by_schema_witness :
    Language.parse_offsets cfbHdr9 4 =
      .ok ([1, 2, 0, 3], ⟨cfbHdr9.data, List.replicate 9 BlobRegions.Header, 9⟩)
    ∧ (([1, 2, 0, 3] : List Nat)[2]? = some 0)
    ∧ Language.keypadStage cfbHdr9 2 0 0 = .error "Missing Keypad strings in V2 language file"
    ∧ Language.keypadStage cfbHdr9 3 0 0 = .ok (KeypadStrIndex.empty, cfbHdr9) :=
  ⟨rfl,
   keypad_zero_offset_by_schema.2.2.1 cfbHdr9 [1, 2, 0, 3]
     ⟨cfbHdr9.data, List.replicate 9 BlobRegions.Header, 9⟩ rfl,
   keypad_zero_offset_by_schema.1 cfbHdr9 0,
   keypad_zero_offset_by_schema.2.1 cfbHdr9 0⟩

/-- C8 counterexample: tagging an `Empty` byte *succeeds but changes the
region state* (the byte is set to the label), refuting "leaves the region
state unchanged" for ranges that are merely `Empty`. -/
theorem addRegion_empty_changes_state :
    addRegion [BlobRegions.Empty] 0 1 BlobRegions.Header = .ok [BlobRegions.Header]
    ∧ [BlobRegions.Header] ≠ [BlobRegions.Empty] :=
  ⟨rfl, by decide⟩

/-- C8 (amended): tagging a range succeeds when every byte is `Empty` or
already carries the label, *setting* the `Empty` bytes to the label and
leaving the rest untouched; re-tagging an already-tagged range with the
same label is a no-op; and it aborts fatally ("Region type mismatch") as
soon as some byte carries a different non-`Empty` label. -/
theorem addRegion_tagging_behavior :
    (∀ (regions : List BlobRegions) (start fin : Nat) (t : BlobRegions),
      (∀ i, start ≤ i → i < fin →
        regions[i]? = some BlobRegions.Empty ∨ regions[i]? = some t) →
      fin ≤ regions.length →
      ∃ regs', addRegion regions start fin t = .ok regs' ∧
        ∀ j, regs'[j]? = if start ≤ j ∧ j < fin then some t else regions[j]?)
    ∧ (∀ (regions : List BlobRegions) (start fin : Nat) (t : BlobRegions),
      (∀ i, start ≤ i → i < fin → regions[i]? = some t) →
      fin ≤ regions.length →
      addRegion regions start fin t = .ok regions)
    ∧ (∀ (regions : List BlobRegions) (start fin : Nat) (t : BlobRegions) (i : Nat)
        (r : BlobRegions),
      start ≤ i → i < fin → regions[i]? = some r →
      r ≠ BlobRegions.Empty → r ≠ t →
      (∀ j, start ≤ j → j < i →
        regions[j]? = some BlobRegions.Empty ∨ regions[j]? = some t) →
      addRegion regions start fin t = .error "Region type mismatch") := by
  refine ⟨?_, ?_, ?_⟩
  · intro regions start fin t hcompat hlen
    rcases addRegion_ok_of_compat fin t (fin - start) start regions rfl hcompat hlen with
      ⟨regs', hok, _, hget⟩
    exact ⟨regs', hok, hget⟩
  · intro regions start fin t hsame hlen
    rcases addRegion_ok_of_compat fin t (fin - start) start regions rfl
      (fun i h1 h2 => Or.inr (hsame i h1 h2)) hlen with ⟨regs', hok, _, hget⟩
    have : regs' = regions := by
      apply List.ext_getElem?
      intro j
      rw [hget j]
      by_cases hj : start ≤ j ∧ j < fin
      · rw [if_pos hj, hsame j hj.1 hj.2]
      · rw [if_neg hj]
    exact this ▸ hok
  · intro regions start fin t i r h1 h2 hget hne hnt hprior
    exact addRegion_error_of_conflict fin t (i - start) start regions i r rfl h1 h2
      hget hne hnt hprior

/-- Witness for C8: a same-label re-tag is a no-op, and a conflicting label
aborts, at concrete one-byte region states. -/
theorem addRegion_tagging_behavior_witness :
    addRegion [BlobRegions.Header] 0 1 BlobRegions.Header = .ok [BlobRegions.Header]
    ∧ addRegion [BlobRegions.Units] 0 1 BlobRegions.Header = .error "Region type mismatch" :=
  ⟨addRegion_tagging_behavior.2.1 [BlobRegions.Header] 0 1 BlobRegions.Header
     (fun i hi1 hi2 => by
       have : i = 0 := by omega
       subst this
       rfl)
     (by decide),
   addRegion_tagging_behavior.2.2 [BlobRegions.Units] 0 1 BlobRegions.Header 0
     BlobRegions.Units (by decide) (by decide) rfl (by decide) (by decide)
     (fun j hj1 hj2 => absurd hj2 (by omega))⟩

/-- C6: `get_string(0, n)` returns the "no string" sentinel as a success for
every maximum length (and every decoder and region state); and for an
offset `off > 0` whose first scanned byte is the NUL terminator, it returns
the "empty string" sentinel (the scanned byte is tagged `Text`, which must
not conflict with an earlier tag — hypothesis on `addRegion`). -/
theorem getString_sentinels :
    (∀ (maps : CharacterMaps) (data : List Nat) (regions : List BlobRegions) (n : Nat),
      getString maps data regions 0 n = .ok (.Ok noStringSentinel, regions))
    ∧ (∀ (maps : CharacterMaps) (data : List Nat) (regions : List BlobRegions)
        (off n : Nat) (regs' : List BlobRegions),
      0 < off → data[off]? = some 0 → 1 ≤ n →
      addRegion regions off (off + 1) BlobRegions.Text = .ok regs' →
      getString maps data regions off n = .ok (.Ok emptyStringSentinel, regs')) := by
  constructor
  · intro maps data regions n
    rfl
  · intro maps data regions off n regs' hoff hdata hn hreg
    unfold getString getBytes getBytesAux
    rw [if_neg (by omega : ¬ off = 0)]
    rw [(by omega : off + n - off = (n - 1) + 1)]
    rw [getBytesGo, hdata]
    simp [hreg, getString, emptyStringSentinel]

/-- Witness for C6: the empty-string sentinel at data `[5, 0]`, offset 1,
and the no-string sentinel at offset 0, with fresh region state. -/
theorem getString_sentinels_witness :
    getString cmapsTest [5, 0] [BlobRegions.Empty, BlobRegions.Empty] 1 3 =
      .ok (.Ok emptyStringSentinel, [BlobRegions.Empty, BlobRegions.Text])
    ∧ getString cmapsTest [5, 0] [BlobRegions.Empty, BlobRegions.Empty] 0 7 =
      .ok (.Ok noStringSentinel, [BlobRegions.Empty, BlobRegions.Empty]) :=
  ⟨getString_sentinels.2 cmapsTest [5, 0] [BlobRegions.Empty, BlobRegions.Empty] 1 3
     [BlobRegions.Empty, BlobRegions.Text] (by decide) rfl (by decide) rfl,
   getString_sentinels.1 cmapsTest [5, 0] [BlobRegions.Empty, BlobRegions.Empty] 7⟩

/-- C5 counterexample: the mnemonic key is *not* the two's-complement
reinterpretation of the raw 4-byte value.  At raw `0xFFFFFFFE` the code
produces `-1` (the claim's own example) while two's complement gives `-2`;
and at raw `0x8000000` — above the claim's negativity threshold
`0x7FFFFFF` — the code produces the *positive* key `0x8000001`. -/
theorem mnemonicKey_not_twos_complement :
    mnemonicKeyOfRaw 0xFFFFFFFE = -1
    ∧ twosComplement32 0xFFFFFFFE = -2
    ∧ mnemonicKeyOfRaw 0xFFFFFFFE ≠ twosComplement32 0xFFFFFFFE
    ∧ (0x8000000 : Nat) > 0x7FFFFFF
    ∧ mnemonicKeyOfRaw 0x8000000 = 134217729 := by
  refine ⟨by decide, by decide, by decide, by decide, by decide⟩

/-- C5 (amended): the key derivation `-((0xFFFFFFFF - value) as i32)` for
`value > 0x7FFFFFF` amounts to: identity below `0x8000000`, `value + 1`
(wrapped at `i32::MIN` for `value = 0x7FFFFFFF`) up to `0x80000000`, and
`value - (2^32 - 1)` above — in particular `0xFFFFFFFE` decodes to `-1` and
`5` to `5` as the specification's examples state. -/
theorem mnemonicKey_closed_form_claim :
    (∀ v : Nat, v < 4294967296 →
      mnemonicKeyOfRaw v =
        if v ≤ 0x7FFFFFF then (v : Int)
        else if v < 2147483648 then i32OfU32 (v + 1)
        else (v : Int) - 4294967295)
    ∧ mnemonicKeyOfRaw 0xFFFFFFFE = -1
    ∧ mnemonicKeyOfRaw 5 = 5 :=
  ⟨mnemonicKeyOfRaw_closed_form, by decide, by decide⟩

/-- Witness for C5: the closed form applied at the specification's two
example raw values. -/
theorem mnemonicKey_closed_form_claim_witness :
    (0xFFFFFFFE : Nat) < 4294967296
    ∧ mnemonicKeyOfRaw 0xFFFFFFFE =
        (if (0xFFFFFFFE : Nat) ≤ 0x7FFFFFF then ((0xFFFFFFFE : Nat) : Int)
         else if (0xFFFFFFFE : Nat) < 2147483648 then i32OfU32 (0xFFFFFFFE + 1)
         else ((0xFFFFFFFE : Nat) : Int) - 4294967295)
    ∧ mnemonicKeyOfRaw 5 =
        (if (5 : Nat) ≤ 0x7FFFFFF then ((5 : Nat) : Int)
         else if (5 : Nat) < 2147483648 then i32OfU32 (5 + 1)
         else ((5 : Nat) : Int) - 4294967295) :=
  ⟨by decide,
   mnemonicKey_closed_form_claim.1 0xFFFFFFFE (by decide),
   mnemonicKey_closed_form_claim.1 5 (by decide)⟩

set_option maxRecDepth 4096 in
theorem byteMask (b : Nat) (hb : b < 256) : b &&& 0xFF3F = b &&& 0x3F := by
  have h : ∀ x : Fin 256, (x : Nat) &&& 0xFF3F = (x : Nat) &&& 0x3F := by decide
  exact h ⟨b, hb⟩

/-- C4: in codepage mode (the `bytesToStringAux` walk), a byte pair whose
second byte has top bits `11` and whose first byte has low bit `1` is
consumed as a unit — the walk resumes two positions later — and is decoded
as the single two-byte code `((second &&& 0x3F) <<< 7) ||| (first >>> 1)`. -/
theorem codepage_two_byte_escape :
    (∀ (maps : CharacterMaps) (bytes : List Nat),
      maps.is_utf8 = false → bytesToString maps bytes = bytesToStringAux maps bytes 0 "")
    ∧ (∀ (maps : CharacterMaps) (bytes : List Nat) (i : Nat) (acc : String) (b1 b2 : Nat),
      bytes[i]? = some b1 → bytes[i + 1]? = some b2 → b2 < 256 →
      b2 &&& 0xC0 = 0xC0 → b1 &&& 0x01 = 0x01 →
      bytesToStringAux maps bytes i acc = (do
        let u ← maps.decode_2bytes (((b2 &&& 0x3F) <<< 7) ||| (b1 >>> 1))
        bytesToStringAux maps bytes (i + 2) (appendFragment acc u))) := by
  constructor
  · intro maps bytes h
    unfold bytesToString
    rw [h]
    rfl
  · intro maps bytes i acc b1 b2 h1 h2 hlt htop hlow
    have hi : i < bytes.length := (List.getElem?_eq_some.mp h1).1
    have hi2 : i + 1 < bytes.length := (List.getElem?_eq_some.mp h2).1
    have hd1 : bytes.getD i 0 = b1 := by
      rw [List.getD_eq_getElem?_getD, h1]
      rfl
    have hd2 : bytes.getD (i + 1) 0 = b2 := by
      rw [List.getD_eq_getElem?_getD, h2]
      rfl
    rw [bytesToStringAux]
    rw [dif_pos hi]
    rw [dif_pos hi2]
    rw [hd1, hd2]
    rw [if_pos (⟨htop, hlow⟩ : b2 &&& 0xC0 = 0xC0 ∧ b1 &&& 0x01 = 0x01)]
    rw [byteMask b2 hlt]

/-- Witness for C4: the pair `(0x03, 0xC1)` at the start of a codepage-mode
stream is consumed as one escape. -/
theorem codepage_two_byte_escape_witness :
    bytesToString cmapsTest [3, 193] = bytesToStringAux cmapsTest [3, 193] 0 ""
    ∧ bytesToStringAux cmapsTest [3, 193] 0 "" = (do
        let u ← cmapsTest.decode_2bytes (((193 &&& 0x3F) <<< 7) ||| (3 >>> 1))
        bytesToStringAux cmapsTest [3, 193] 2 (appendFragment "" u)) :=
  ⟨codepage_two_byte_escape.1 cmapsTest [3, 193] rfl,
   codepage_two_byte_escape.2 cmapsTest [3, 193] 0 "" 3 193 rfl rfl (by decide)
     (by decide) (by decide)⟩

/-- C7: in the codepage walk, a final byte with top bits `11` — which has no
following byte and so cannot be consumed as the first byte of a 2-byte
pair — produces the *recoverable* `Err` result carrying the partially
decoded string and the raw bytes (`danglingMsg`), never the fatal
`Except.error` branch that models a panic. -/
theorem codepage_dangling_escape_recoverable :
    (∀ (maps : CharacterMaps) (bytes : List Nat) (i : Nat) (acc : String) (b : Nat),
      i + 1 = bytes.length → bytes[i]? = some b → b &&& 0xC0 = 0xC0 →
      bytesToStringAux maps bytes i acc = .ok (.Err (danglingMsg acc bytes)))
    ∧ (∀ (maps : CharacterMaps) (bytes : List Nat) (i : Nat) (acc : String) (b : Nat)
        (msg : String),
      i + 1 = bytes.length → bytes[i]? = some b → b &&& 0xC0 = 0xC0 →
      bytesToStringAux maps bytes i acc ≠ .error msg) := by
  have main : ∀ (maps : CharacterMaps) (bytes : List Nat) (i : Nat) (acc : String) (b : Nat),
      i + 1 = bytes.length → bytes[i]? = some b → b &&& 0xC0 = 0xC0 →
      bytesToStringAux maps bytes i acc = .ok (.Err (danglingMsg acc bytes)) := by
    intro maps bytes i acc b hlen h1 htop
    have hi : i < bytes.length := (List.getElem?_eq_some.mp h1).1
    have hd1 : bytes.getD i 0 = b := by
      rw [List.getD_eq_getElem?_getD, h1]
      rfl
    rw [bytesToStringAux]
    rw [dif_pos hi]
    rw [dif_neg (by omega : ¬ i + 1 < bytes.length)]
    rw [hd1]
    rw [if_pos htop]
  refine ⟨main, ?_⟩
  intro maps bytes i acc b msg hlen h1 htop
  rw [main maps bytes i acc b hlen h1 htop]
  exact fun hcontra => Except.noConfusion hcontra

/-- Witness for C7: the single dangling byte `0xC0` yields the recoverable
`Err` and not a fatal error. -/
theorem codepage_dangling_escape_recoverable_witness :
    bytesToStringAux cmapsTest [192] 0 "" = .ok (.Err (danglingMsg "" [192]))
    ∧ bytesToStringAux cmapsTest [192] 0 "" ≠ .error "Region type mismatch" :=
  ⟨codepage_dangling_escape_recoverable.1 cmapsTest [192] 0 "" 192 rfl rfl (by decide),
   codepage_dangling_escape_recoverable.2 cmapsTest [192] 0 "" 192 "Region type mismatch"
     rfl rfl (by decide)⟩

/-- C2 counterexample: iterating a product index with keys `{1, 2}` yields
key 1 first — ascending, not descending, order (the iterator sorts the keys
descending into its `items` vector but `next` pops items off the *end*). -/
theorem product_iteration_not_descending :
    (drain (ProductIndex.intoIter exampleProducts)).map Prod.fst = [1, 2]
    ∧ ¬ List.Sorted (· ≥ ·) ((drain (ProductIndex.intoIter exampleProducts)).map Prod.fst) := by
  refine ⟨by decide, ?_⟩
  rw [(by decide : (drain (ProductIndex.intoIter exampleProducts)).map Prod.fst = [1, 2])]
  decide

/-- C2 (amended): for every index table (the `into_iter` body is shared by
all eight index types) and every insertion order, the iteration sequence is
*ascending* by key, and visits exactly the stored keys. -/
theorem index_iteration_ascending :
    (∀ {K V : Type} [LinearOrder K] (m : List (K × V)),
      List.Sorted (· ≤ ·) ((drain (intoIterItems m)).map Prod.fst)
      ∧ ((drain (intoIterItems m)).map Prod.fst).Perm (m.map Prod.fst))
    ∧ (∀ pi : ProductIndex,
      List.Sorted (· ≤ ·) ((drain pi.intoIter).map Prod.fst)) := by
  have main : ∀ {K V : Type} [LinearOrder K] (m : List (K × V)),
      List.Sorted (· ≤ ·) ((drain (intoIterItems m)).map Prod.fst)
      ∧ ((drain (intoIterItems m)).map Prod.fst).Perm (m.map Prod.fst) := by
    intro K V _inst m
    rw [drain_intoIterItems_fst]
    exact ⟨List.sorted_insertionSort _ _, List.perm_insertionSort _ _⟩
  exact ⟨main, fun pi => (main pi.products).1⟩

/-- Witness for C2 (amended): the iteration of a two-entry map inserted in
descending key order is ascending and visits both keys. -/
theorem index_iteration_ascending_witness :
    List.Sorted (· ≤ ·) ((drain (intoIterItems [(2, "b"), (1, "a")])).map Prod.fst)
    ∧ ((drain (intoIterItems [(2, "b"), (1, "a")])).map Prod.fst).Perm
        ([(2, "b"), (1, "a")].map Prod.fst) :=
  index_iteration_ascending.1 [(2, "b"), (1, "a")]

/-- C1 counterexample: a schema-3 parameter table with two records sharing
key 7 parses *successfully* — no fatal abort — and the later record has
silently overwritten the earlier one (the final map holds the offset-2
entry only). -/
theorem param_duplicate_key_not_fatal :
    paramHeaderV3 cfbParamDup 0 = .ok ((2, 32, 5), cfbParamDupH)
    ∧ paramRecordsV3 cfbParamDupH 2 =
        .ok ([(7, ⟨7, 1, 0, MnemonicIndex.empty⟩), (7, ⟨7, 2, 0, MnemonicIndex.empty⟩)],
          cfbParamDupEnd)
    ∧ ¬ (([(7, (⟨7, 1, 0, MnemonicIndex.empty⟩ : ParameterIndexEntry)),
          (7, ⟨7, 2, 0, MnemonicIndex.empty⟩)].map Prod.fst).Nodup)
    ∧ ParameterIndex.from_v3 cfbParamDup 0 =
        .ok ((⟨[(7, ⟨7, 2, 0, MnemonicIndex.empty⟩)]⟩, 0, 0), cfbParamDupEnd) :=
  ⟨rfl, rfl, by decide, rfl⟩

/-- C1 (amended): in the *mnemonic* table, two records with the same key
abort the whole parse fatally (`MnemonicIndex::from` tests the value
returned by `insert`: if the raw record stream contains a duplicated key,
`from` errors).  In the *schema-3 parameter* table a duplicate key is never
fatal: the loop discards the `insert` result, so the parse succeeds with
the final map equal to the left fold of replacing inserts over the record
stream — the later record silently overwrites the earlier
(`hmLookup (hmInsert m k e).2 k = some e`). -/
theorem duplicate_key_handling :
    (∀ (fb : FileBlob) (n : Nat) (fb₁ : FileBlob) (iel : Nat) (fb₂ : FileBlob)
        (recs : List (Int × MnemonicIndexEntry)) (fb₃ : FileBlob),
      fb.read_le_2bytes BlobRegions.Mnemonics = .ok (n, fb₁) →
      fb₁.read_byte BlobRegions.Mnemonics = .ok (iel, fb₂) →
      iel ≠ 0 →
      mnemonicRecords fb₂ n = .ok (recs, fb₃) →
      ¬ (recs.map Prod.fst).Nodup →
      ∃ msg, MnemonicIndex.from fb = .error msg)
    ∧ (∀ (fb : FileBlob) (n : Nat) (m : List (Nat × ParameterIndexEntry)) (fb₂ : FileBlob),
      paramLoopV3 fb n [] = .ok (m, fb₂) →
      ∃ recs, paramRecordsV3 fb n = .ok (recs, fb₂) ∧
        m = recs.foldl (fun acc r => (hmInsert acc r.1 r.2).2) [])
    ∧ (∀ (m : List (Nat × ParameterIndexEntry)) (k : Nat) (e : ParameterIndexEntry),
      hmLookup (hmInsert m k e).2 k = some e) := by
  refine ⟨?_, ?_, fun m k e => hmLookup_insert_self m k e⟩
  · intro fb n fb₁ iel fb₂ recs fb₃ hread1 hread2 hiel hrecs hnd
    rcases mnemonicLoop_error_of_dup n fb₂ recs fb₃ [] hrecs hnd with ⟨msg, hloop⟩
    unfold MnemonicIndex.from
    rw [hread1, except_bind_ok]
    simp only []
    rw [hread2, except_bind_ok]
    simp only []
    rw [if_pos hiel]
    cases hval : MnemonicIndex.validate_schema iel with
    | error e =>
      exact ⟨e, rfl⟩
    | ok u =>
      cases u
      refine ⟨msg, ?_⟩
      simp only [except_bind_ok]
      rw [hloop]
      rfl
  · intro fb n m fb₂ h
    rw [paramLoopV3_eq_foldl] at h
    cases hrecs : paramRecordsV3 fb n with
    | error e =>
      rw [hrecs] at h
      simp at h
    | ok q =>
      obtain ⟨recs, fb₂'⟩ := q
      rw [hrecs] at h
      simp only [except_bind_ok] at h
      injection h with h
      injection h with h1 h2
      subst h2
      exact ⟨recs, rfl, h1.symm⟩

/-- Witness for C1 (amended): a concrete mnemonic table with raw keys
`[5, 5]` aborts; a concrete parameter loop result is the left fold of its
records; and the overwrite equation at a concrete map. -/
theorem duplicate_key_handling_witness :
    cfbMnDup.read_le_2bytes BlobRegions.Mnemonics = .ok (2, cfbMnDup1)
    ∧ cfbMnDup1.read_byte BlobRegions.Mnemonics = .ok (5, cfbMnDup2)
    ∧ (5 : Nat) ≠ 0
    ∧ mnemonicRecords cfbMnDup2 2 =
        .ok ([((5 : Int), ⟨5, 1, 0⟩), ((5 : Int), ⟨5, 2, 0⟩)], cfbMnDup3)
    ∧ ¬ (([((5 : Int), (⟨5, 1, 0⟩ : MnemonicIndexEntry)),
          ((5 : Int), ⟨5, 2, 0⟩)].map Prod.fst).Nodup)
    ∧ (∃ msg, MnemonicIndex.from cfbMnDup = .error msg)
    ∧ (∃ recs, paramRecordsV3 cfbParamDupH 2 = .ok (recs, cfbParamDupEnd) ∧
        [(7, (⟨7, 2, 0, MnemonicIndex.empty⟩ : ParameterIndexEntry))] =
          recs.foldl (fun acc r => (hmInsert acc r.1 r.2).2) [])
    ∧ hmLookup (hmInsert [(7, (⟨7, 1, 0, MnemonicIndex.empty⟩ : ParameterIndexEntry))] 7
        ⟨7, 2, 0, MnemonicIndex.empty⟩).2 7 = some ⟨7, 2, 0, MnemonicIndex.empty⟩ :=
  ⟨rfl, rfl, by decide, rfl, by decide,
   duplicate_key_handling.1 cfbMnDup 2 cfbMnDup1 5 cfbMnDup2
     [((5 : Int), ⟨5, 1, 0⟩), ((5 : Int), ⟨5, 2, 0⟩)] cfbMnDup3 rfl rfl (by decide) rfl
     (by decide),
   duplicate_key_handling.2.1 cfbParamDupH 2
     [(7, ⟨7, 2, 0, MnemonicIndex.empty⟩)] cfbParamDupEnd rfl,
   duplicate_key_handling.2.2 [(7, ⟨7, 1, 0, MnemonicIndex.empty⟩)] 7
     ⟨7, 2, 0, MnemonicIndex.empty⟩⟩

/-- C3: building a schema-3 menu entry whose parameter table contains key
255 with caption offset `C` (and tooltip offset `T`) produces a menu entry
exposing exactly those offsets, and key 255 is absent from the menu's
parameter map and from its iteration sequence. -/
theorem menu_param255_extraction :
    ∀ (fb : FileBlob) (ff mn off n msl iel : Nat) (fb₁ : FileBlob)
      (m : List (Nat × ParameterIndexEntry)) (fb₂ : FileBlob) (pe : ParameterIndexEntry),
    paramHeaderV3 (fb.set_pos off) ff = .ok ((n, msl, iel), fb₁) →
    iel ≠ 0 →
    ParameterIndex.validate_schema 3 iel msl = .ok () →
    paramLoopV3 fb₁ n [] = .ok (m, fb₂) →
    hmLookup m 255 = some pe →
    MenuIndex.buildEntryV3 fb ff mn off =
      .ok (⟨mn, pe.caption_off, pe.tooltip_off, ⟨(hmRemove m 255).2⟩⟩, fb₂)
    ∧ hmLookup (hmRemove m 255).2 255 = none
    ∧ 255 ∉ ((drain (intoIterItems (hmRemove m 255).2)).map Prod.fst) := by
  intro fb ff mn off n msl iel fb₁ m fb₂ pe hheader hiel hval hloop hlook
  have hnodup := paramLoopV3_nodup n fb₁ m fb₂ hloop
  have hnotmem := hmRemove_not_mem m 255 hnodup
  have h255 : hmRemove m 255 = (some pe, (hmRemove m 255).2) := by
    have h1 : (hmRemove m 255).1 = some pe := by
      rw [hmRemove_fst]
      exact hlook
    exact Prod.ext h1 rfl
  refine ⟨?_, hmLookup_eq_none_of_not_mem hnotmem, ?_⟩
  · unfold MenuIndex.buildEntryV3 ParameterIndex.from_v3
    rw [hheader, except_bind_ok]
    simp only []
    rw [if_pos hiel, hval, except_bind_ok, hloop, except_bind_ok]
    simp only [checkParam255]
    rw [h255]
    rfl
  · rw [drain_intoIterItems_fst]
    intro hmem
    exact hnotmem ((List.mem_insertionSort _).mp hmem)

/-- Witness for C3: a concrete schema-3 parameter table holding only the
fake parameter 255 with caption offset 9 yields a menu entry with caption
offset 9 and an empty iterable parameter set. -/
theorem menu_param255_extraction_witness :
    paramHeaderV3 (cfbP255.set_pos 0) 0 = .ok ((1, 32, 5), cfbP255H)
    ∧ (5 : Nat) ≠ 0
    ∧ ParameterIndex.validate_schema 3 5 32 = .ok ()
    ∧ paramLoopV3 cfbP255H 1 [] = .ok ([(255, pe255)], cfbP255End)
    ∧ hmLookup [(255, pe255)] 255 = some pe255
    ∧ (MenuIndex.buildEntryV3 cfbP255 0 4 0 =
        .ok (⟨4, pe255.caption_off, pe255.tooltip_off,
          ⟨(hmRemove [(255, pe255)] 255).2⟩⟩, cfbP255End)
      ∧ hmLookup (hmRemove [(255, pe255)] 255).2 255 = none
      ∧ 255 ∉ ((drain (intoIterItems (hmRemove [(255, pe255)] 255).2)).map Prod.fst)) :=
  ⟨rfl, by decide, rfl, rfl, rfl,
   menu_param255_extraction cfbP255 0 4 0 1 32 5 cfbP255H [(255, pe255)] cfbP255End pe255
     rfl (by decide) rfl rfl rfl⟩
